import Mathlib

/-!
Shallow embedding of `src/generate-report.ts` from playwright-ctrf-json-reporter.

The reporter walks a Playwright suite tree at `onEnd`, converts the last
attempt of every test case into a CTRF test record, accumulates summary
counters, and writes the report. The definitions below translate the
relevant functions of the source; external Node/Playwright facilities
(`Buffer.toString('base64')`, `JSON.parse` composed with utf-8 decoding)
enter as explicit function parameters, since they are not code of this
repository. JavaScript `undefined` on an optional field is rendered as
`Option.none`; a thrown exception as `Except.error` or `Option.none`.
-/

/-- Binary attachment payload (Node `Buffer`), as a list of bytes. -/
abbrev Buffer : Type := List Nat

/-- A JSON value, the result of `JSON.parse` on a metadata attachment body.
Covers the shapes a metadata attachment can produce (objects with string
keys, primitives, null); property access on a non-object yields `undefined`,
exactly as in JavaScript. -/
inductive JsVal where
  | vNull : JsVal
  | vBool : Bool → JsVal
  | vNum : Int → JsVal
  | vStr : String → JsVal
  | vObj : List (String × JsVal) → JsVal

/-- JavaScript property access `v?.key`: a field lookup on an object,
`undefined` (i.e. `none`) on any non-object value. -/
def jsGetField : JsVal → String → Option JsVal
  | JsVal.vObj fields, key => (fields.find? (fun p => p.1 == key)).map (fun p => p.2)
  | _, _ => none

/-- JavaScript template-literal interpolation of a possibly-undefined value,
as used in the browser string `\x7b name \x7d \x7b version \x7d`. -/
def jsTemplate : Option JsVal → String
  | none => "undefined"
  | some JsVal.vNull => "null"
  | some (JsVal.vBool b) => if b then "true" else "false"
  | some (JsVal.vNum n) => toString n
  | some (JsVal.vStr s) => s
  | some (JsVal.vObj _) => "[object Object]"

/-- One entry of `testResult.attachments`. -/
structure Attachment where
  name : String
  contentType : String
  body : Option Buffer
deriving DecidableEq

/-- The optional `error` object of a Playwright `TestResult`. -/
structure TestError where
  message : Option String
  stack : Option String
deriving DecidableEq

/-- A Playwright `TestResult`: one attempt of a test case. `startTime` is in
epoch milliseconds. -/
structure TestResult where
  status : String
  duration : Int
  startTime : Int
  retry : Nat
  attachments : List Attachment
  error : Option TestError
deriving DecidableEq

/-- A Playwright `TestCase`. `parentTitles` embeds the upward `parent` links
used by `buildSuitePath`: the titles of the ancestor suites, from the test's
immediate parent suite first up to the root suite last. -/
structure TestCase where
  title : String
  locationFile : String
  results : List TestResult
  parentTitles : List String
deriving DecidableEq

/-- A Playwright `Suite`: own title, directly owned tests, child suites. -/
inductive Suite where
  | mk : String → List TestCase → List Suite → Suite

/-- The reporter configuration; every field is optional exactly as in the
`ReporterConfigOptions` interface (the constructor normally fills defaults,
but the use sites re-apply `??` defaults, which the embedding preserves). -/
structure ReporterConfigOptions where
  outputFile : Option String := none
  outputDir : Option String := none
  minimal : Option Bool := none
  screenshot : Option Bool := none
  testType : Option String := none
deriving DecidableEq

/-- A CTRF test record. `none` marks a field that is absent (or was assigned
JavaScript `undefined`, which `JSON.stringify` also omits). -/
structure CtrfTest where
  name : String
  status : String
  duration : Int
  start : Option Int := none
  stop : Option Int := none
  message : Option String := none
  trace : Option String := none
  rawStatus : Option String := none
  tags : Option (List String) := none
  type : Option String := none
  filePath : Option String := none
  retry : Option Nat := none
  flake : Option Bool := none
  screenshot : Option String := none
  suite : Option String := none
  browser : Option String := none
deriving DecidableEq

/-- The CTRF summary counters. `suites` is absent until `onEnd` sets it. -/
structure Summary where
  tests : Nat
  passed : Nat
  failed : Nat
  pending : Nat
  skipped : Nat
  other : Nat
  start : Int
  stop : Int
  suites : Option Nat := none
deriving DecidableEq

/-- The in-progress report: `results.summary` and `results.tests`. -/
structure Report where
  summary : Summary
  tests : List CtrfTest
deriving DecidableEq

/-- The report as built by the constructor: all counters zero, no records. -/
def initialReport : Report :=
  { summary :=
      { tests := 0, passed := 0, failed := 0, pending := 0, skipped := 0
        other := 0, start := 0, stop := 0 }
    tests := [] }

/-- `mapPlaywrightStatusToCtrf`: the switch over the host-native status. -/
def mapPlaywrightStatusToCtrf (testStatus : String) : String :=
  if testStatus = "passed" then "passed"
  else if testStatus = "failed" then "failed"
  else if testStatus = "timedOut" then "failed"
  else if testStatus = "interrupted" then "failed"
  else if testStatus = "skipped" then "skipped"
  else if testStatus = "pending" then "pending"
  else "other"

/-- The keys of the summary object at the time `updateSummaryFromTestResult`
runs (the eight fields the constructor initialises; `suites` is only added
later, in `onEnd`). This embeds the dynamic `ctrfStatus in summary` check. -/
def summaryKeys : List String :=
  ["tests", "passed", "failed", "pending", "skipped", "other", "start", "stop"]

/-- Dynamic-property increment `summary[key]++` for a key of the summary. -/
def incrementSummaryField (s : Summary) (key : String) : Summary :=
  if key = "tests" then { s with tests := s.tests + 1 }
  else if key = "passed" then { s with passed := s.passed + 1 }
  else if key = "failed" then { s with failed := s.failed + 1 }
  else if key = "pending" then { s with pending := s.pending + 1 }
  else if key = "skipped" then { s with skipped := s.skipped + 1 }
  else if key = "other" then { s with other := s.other + 1 }
  else if key = "start" then { s with start := s.start + 1 }
  else if key = "stop" then { s with stop := s.stop + 1 }
  else s

/-- `updateSummaryFromTestResult`: increments the total, then the bucket of
the mapped status if it is a key of the summary, else the `other` bucket. -/
def updateSummaryFromTestResult (testResult : TestResult) (summary : Summary) : Summary :=
  let s1 := { summary with tests := summary.tests + 1 }
  let ctrfStatus := mapPlaywrightStatusToCtrf testResult.status
  if summaryKeys.contains ctrfStatus then incrementSummaryField s1 ctrfStatus
  else { s1 with other := s1.other + 1 }

/-- `setFilename`: append `".json"` unless the name already ends with it.
Filenames are embedded as character lists; JavaScript `String.endsWith` is
the suffix test. -/
def jsonExt : List Char := ['.', 'j', 's', 'o', 'n']

/-- `setFilename` proper (returning the normalized name rather than storing
it in the config record). -/
def setFilename (filename : List Char) : List Char :=
  if jsonExt.isSuffixOf filename then filename else filename ++ jsonExt

/-- `updateStart`: epoch milliseconds to whole epoch seconds, floored. -/
def updateStart (startTime : Int) : Int :=
  Int.fdiv startTime 1000

/-- `calculateStopTime`: start plus duration, in whole epoch seconds. -/
def calculateStopTime (startTime : Int) (duration : Int) : Int :=
  Int.fdiv (startTime + duration) 1000

/-- The word characters of the JavaScript regex class backslash-w. -/
def isWordChar (c : Char) : Bool :=
  c.isAlpha || c.isDigit || c = '_'

/-- The global regex scan of `/@\w+/g` over the title's characters: at an
`@` followed by at least one word character, the maximal token is matched
and the scan resumes after it; otherwise the scan advances one character. -/
def extractTagsAux : List Char → List String
  | [] => []
  | '@' :: rest =>
      let w := rest.takeWhile isWordChar
      if w.isEmpty then extractTagsAux rest
      else String.mk ('@' :: w) :: extractTagsAux (rest.dropWhile isWordChar)
  | _ :: rest => extractTagsAux rest
termination_by l => l.length
decreasing_by
  all_goals simp
  have h := (List.dropWhile_sublist (l := rest) isWordChar).length_le
  omega

/-- `extractTagsFromTitle`: all `/@\w+/g` matches, `[]` when none. -/
def extractTagsFromTitle (title : String) : List String :=
  extractTagsAux title.toList

/-- `buildSuitePath`'s loop: walk the parent links (immediate parent first),
`unshift`ing every non-empty title, so the accumulator ends outermost-first. -/
def buildSuitePathComponents : List String → List String → List String
  | [], acc => acc
  | t :: rest, acc =>
      buildSuitePathComponents rest (if t = "" then acc else t :: acc)

/-- `buildSuitePath`: non-empty ancestor titles, outermost to innermost,
joined with `" > "`. -/
def buildSuitePath (test : TestCase) : String :=
  String.intercalate " > " (buildSuitePathComponents test.parentTitles [])

/-- The predicate of the `find` call in `extractScreenshotBase64`. -/
def isScreenshotImage (a : Attachment) : Bool :=
  a.name == "screenshot" &&
    (a.contentType == "image/jpeg" || a.contentType == "image/png")

/-- `extractScreenshotBase64`: the FIRST attachment named `"screenshot"`
with a jpeg/png content type (JavaScript `Array.find`), its body encoded by
the external base64 encoder `b64`; `none` when no attachment or no body. -/
def extractScreenshotBase64 (b64 : Buffer → String) (testResult : TestResult) :
    Option String :=
  (testResult.attachments.find? isScreenshotImage).bind (fun a => a.body.map b64)

/-- The message/trace pair produced by `extractFailureDetails`. -/
structure FailureDetails where
  message : Option String := none
  trace : Option String := none
deriving DecidableEq

/-- `extractFailureDetails`: message and stack are copied only when the raw
host status is exactly `"failed"` and an error object is present. -/
def extractFailureDetails (testResult : TestResult) : FailureDetails :=
  if testResult.status = "failed" then
    match testResult.error with
    | some e => { message := e.message, trace := e.stack }
    | none => {}
  else {}

/-- `extractMetadata`: find the attachment named `"metadata.json"`; when it
has a body, run the external `parse` (`JSON.parse` of the utf-8 text, whose
`Except.error` carries the thrown error's message). A parse failure is
caught: the function returns `none` together with the `console.error` line;
a success returns the parsed value and no log output. -/
def extractMetadata (parse : Buffer → Except String JsVal) (testResult : TestResult) :
    Option JsVal × List String :=
  match testResult.attachments.find? (fun a => a.name == "metadata.json") with
  | some att =>
      match att.body with
      | some b =>
          match parse b with
          | Except.ok v => (some v, [])
          | Except.error msg => (none, ["Error parsing browser metadata: " ++ msg])
      | none => (none, [])
  | none => (none, [])

/-- `updateCtrfTestResultsFromTestResult`, as the construction of the record
that the source pushes onto `ctrfReport.results.tests` (the push itself is
performed by `processTest` below). -/
def updateCtrfTestResultsFromTestResult (cfg : ReporterConfigOptions)
    (b64 : Buffer → String) (parse : Buffer → Except String JsVal)
    (testCase : TestCase) (testResult : TestResult) : CtrfTest :=
  let base : CtrfTest :=
    { name := testCase.title
      status := mapPlaywrightStatusToCtrf testResult.status
      duration := testResult.duration }
  if cfg.minimal = some false then
    let md := (extractMetadata parse testResult).1
    let mdName := md.bind (fun v => jsGetField v "name")
    let mdVersion := md.bind (fun v => jsGetField v "version")
    { base with
      start := some (updateStart testResult.startTime)
      stop := some (calculateStopTime testResult.startTime testResult.duration)
      message := (extractFailureDetails testResult).message
      trace := (extractFailureDetails testResult).trace
      rawStatus := some testResult.status
      tags := some (extractTagsFromTitle testCase.title)
      type := some (cfg.testType.getD "e2e")
      filePath := some testCase.locationFile
      retry := some testResult.retry
      flake := some (testResult.status == "passed" && decide (testResult.retry > 0))
      screenshot :=
        if cfg.screenshot = some true then extractScreenshotBase64 b64 testResult
        else none
      suite := some (buildSuitePath testCase)
      browser :=
        if mdName.isSome || mdVersion.isSome then
          some (jsTemplate mdName ++ " " ++ jsTemplate mdVersion)
        else none }
  else base

/-- `processTest`: reads `results[results.length - 1]` with no emptiness
guard; on an empty results list the lookup is `undefined` and the subsequent
dereferences throw, modelled by `none`. Otherwise pushes the record and
updates the summary. -/
def processTest (cfg : ReporterConfigOptions) (b64 : Buffer → String)
    (parse : Buffer → Except String JsVal) (testCase : TestCase)
    (report : Report) : Option Report :=
  match testCase.results[testCase.results.length - 1]? with
  | none => none
  | some latestResult =>
      some { summary := updateSummaryFromTestResult latestResult report.summary
             tests := report.tests ++
               [updateCtrfTestResultsFromTestResult cfg b64 parse testCase latestResult] }

/-- The first loop of `processSuite`: every test directly owned by a suite. -/
def processTestList (cfg : ReporterConfigOptions) (b64 : Buffer → String)
    (parse : Buffer → Except String JsVal) :
    List TestCase → Report → Option Report
  | [], report => some report
  | tc :: rest, report =>
      match processTest cfg b64 parse tc report with
      | none => none
      | some r1 => processTestList cfg b64 parse rest r1

mutual

/-- `processSuite`: own tests first, then the child suites (pre-order). -/
def processSuite (cfg : ReporterConfigOptions) (b64 : Buffer → String)
    (parse : Buffer → Except String JsVal) : Suite → Report → Option Report
  | Suite.mk _ tests suites, report =>
      match processTestList cfg b64 parse tests report with
      | none => none
      | some r1 => processSuiteList cfg b64 parse suites r1

/-- The recursion of `processSuite` over the `suite.suites` array. -/
def processSuiteList (cfg : ReporterConfigOptions) (b64 : Buffer → String)
    (parse : Buffer → Except String JsVal) : List Suite → Report → Option Report
  | [], report => some report
  | s :: rest, report =>
      match processSuite cfg b64 parse s report with
      | none => none
      | some r1 => processSuiteList cfg b64 parse rest r1

end

mutual

/-- `countSuites`: `count` starts at 0 and only accumulates the recursive
results over the children — nothing is ever added per suite. -/
def countSuites : Suite → Nat
  | Suite.mk _ _ suites => countSuitesList suites

/-- The `forEach` accumulation inside `countSuites`. -/
def countSuitesList : List Suite → Nat
  | [] => 0
  | s :: rest => countSuites s + countSuitesList rest

end

/-- `onEnd`: record the stop time; if a suite tree was captured, process it
and record `countSuites` of the root into `summary.suites`. (The file write
that follows is outside the embedding.) -/
def onEnd (cfg : ReporterConfigOptions) (b64 : Buffer → String)
    (parse : Buffer → Except String JsVal) (suite : Option Suite)
    (report : Report) (now : Int) : Option Report :=
  let r0 := { report with summary := { report.summary with stop := now } }
  match suite with
  | some s =>
      (processSuite cfg b64 parse s r0).map
        (fun r1 => { r1 with summary := { r1.summary with suites := some (countSuites s) } })
  | none => some r0

/-! Concrete configurations, results and trees used by the witnesses and
counterexamples below. -/

/-- A minimal-mode configuration. -/
def cfgMinimalTrue : ReporterConfigOptions := { minimal := some true }

/-- A full configuration: minimal off, screenshots on. -/
def cfgFull : ReporterConfigOptions := { minimal := some false, screenshot := some true }

/-- A concrete base64 stand-in that renders each byte as a decimal digit, so
different bodies encode to different strings. -/
def b64Digits : Buffer → String :=
  fun b => String.mk (b.map (fun n => Char.ofNat (48 + n % 10)))

/-- A parse that always throws, as `JSON.parse` does on malformed input. -/
def parseFail : Buffer → Except String JsVal :=
  fun _ => Except.error "Unexpected token"

/-- A parse producing a metadata object with a `name` but no `version`. -/
def parseNameOnly : Buffer → Except String JsVal :=
  fun _ => Except.ok (JsVal.vObj [("name", JsVal.vStr "chromium")])

/-- A `metadata.json` attachment with a (one-byte) body. -/
def attMeta : Attachment :=
  { name := "metadata.json", contentType := "application/json", body := some [0] }

/-- First screenshot attachment (body `[1]`, so `b64Digits` gives `"1"`). -/
def scrA : Attachment :=
  { name := "screenshot", contentType := "image/png", body := some [1] }

/-- Second screenshot attachment (body `[2]`, so `b64Digits` gives `"2"`). -/
def scrB : Attachment :=
  { name := "screenshot", contentType := "image/jpeg", body := some [2] }

/-- A passing attempt carrying two screenshot attachments. -/
def trTwoShots : TestResult :=
  { status := "passed", duration := 5, startTime := 0, retry := 0
    attachments := [scrA, scrB], error := none }

/-- The test case owning `trTwoShots`. -/
def tcTwoShots : TestCase :=
  { title := "t3", locationFile := "f.spec.ts", results := [trTwoShots], parentTitles := [""] }

/-- An error object with both a message and a stack. -/
def errBoom : TestError := { message := some "boom", stack := some "stk" }

/-- A timed-out attempt that carries an error object. -/
def trTimedOut : TestResult :=
  { status := "timedOut", duration := 7, startTime := 0, retry := 0
    attachments := [], error := some errBoom }

/-- The test case owning `trTimedOut`. -/
def tcTimedOut : TestCase :=
  { title := "t4", locationFile := "f.spec.ts", results := [trTimedOut], parentTitles := [""] }

/-- A natively failed attempt carrying the same error object. -/
def trFailed : TestResult :=
  { status := "failed", duration := 7, startTime := 0, retry := 0
    attachments := [], error := some errBoom }

/-- The test case owning `trFailed`. -/
def tcFailed : TestCase :=
  { title := "t4b", locationFile := "f.spec.ts", results := [trFailed], parentTitles := [""] }

/-- A passing attempt carrying a `metadata.json` attachment. -/
def trMeta : TestResult :=
  { status := "passed", duration := 1, startTime := 0, retry := 0
    attachments := [attMeta], error := none }

/-- The test case owning `trMeta`. -/
def tcMeta : TestCase :=
  { title := "t5", locationFile := "f.spec.ts", results := [trMeta], parentTitles := [""] }

/-- A plain passing attempt with no attachments. -/
def trPassed : TestResult :=
  { status := "passed", duration := 3, startTime := 1000, retry := 0
    attachments := [], error := none }

/-- The test case owning `trPassed`. -/
def tcPassed : TestCase :=
  { title := "w", locationFile := "f.spec.ts", results := [trPassed], parentTitles := [""] }

/-- A test case with an empty results list (no recorded attempt). -/
def tcNoResults : TestCase :=
  { title := "empty", locationFile := "f.spec.ts", results := [], parentTitles := [""] }

/-- A root suite owning a single test. -/
def suiteOneTest : Suite := Suite.mk "" [tcPassed] []

/-- A root suite with exactly one (empty) child suite. -/
def suiteRootChild : Suite := Suite.mk "" [] [Suite.mk "child" [] []]

/-- A test case nested in suites titled `"A"`, `""`, `"B"` (immediate parent
first in `parentTitles`, then up to the empty-titled root). -/
def tcNested : TestCase :=
  { title := "test", locationFile := "f.spec.ts", results := []
    parentTitles := ["B", "", "A", ""] }

/-- The report produced by a run over `suiteOneTest`. -/
def reportAfterRun : Report :=
  (onEnd cfgMinimalTrue b64Digits parseFail (some suiteOneTest) initialReport 9).getD
    initialReport

/-- The invariant relating the summary's total to its five buckets. -/
def summaryCountersConsistent (s : Summary) : Prop :=
  s.tests = s.passed + s.failed + s.pending + s.skipped + s.other

mutual

/-- Precondition of report-generation totality: every test case owned by any
suite of the tree has at least one recorded attempt. -/
def allTestsHaveResults : Suite → Bool
  | Suite.mk _ tests suites =>
      tests.all (fun tc => !tc.results.isEmpty) && allTestsHaveResultsList suites

/-- `allTestsHaveResults` over a list of child suites. -/
def allTestsHaveResultsList : List Suite → Bool
  | [] => true
  | s :: rest => allTestsHaveResults s && allTestsHaveResultsList rest

end

/-! Helper lemmas shared by several claims. -/

/-- The mapped status is always one of the five bucket names. -/
theorem mapStatus_cases (s : String) :
    mapPlaywrightStatusToCtrf s = "passed" ∨ mapPlaywrightStatusToCtrf s = "failed" ∨
    mapPlaywrightStatusToCtrf s = "skipped" ∨ mapPlaywrightStatusToCtrf s = "pending" ∨
    mapPlaywrightStatusToCtrf s = "other" := by
  unfold mapPlaywrightStatusToCtrf
  repeat' split
  all_goals simp

/-- `buildSuitePathComponents` collects the non-empty titles reversed onto
the accumulator. -/
theorem buildSuitePathComponents_eq :
    ∀ (l acc : List String),
      buildSuitePathComponents l acc = (l.filter (fun t => !(t == ""))).reverse ++ acc := by
  intro l
  induction l with
  | nil => intro acc; simp [buildSuitePathComponents]
  | cons t rest ih =>
      intro acc
      by_cases h : t = "" <;>
        simp [buildSuitePathComponents, h, ih, List.filter_cons]

/-- `".json"` is a suffix of anything with `".json"` appended. -/
theorem jsonExt_isSuffixOf_append (f : List Char) :
    jsonExt.isSuffixOf (f ++ jsonExt) = true := by
  rw [List.isSuffixOf_iff_suffix]
  exact List.suffix_append f jsonExt

/-- Claim C6: status normalization is the pure mapping table: `passed` to
`passed`; `failed`, `timedOut` and `interrupted` to `failed`; `skipped` to
`skipped`; `pending` to `pending`; every other string to `other`. -/
theorem statusMapping_table_c6 :
    mapPlaywrightStatusToCtrf "passed" = "passed"
    ∧ mapPlaywrightStatusToCtrf "failed" = "failed"
    ∧ mapPlaywrightStatusToCtrf "timedOut" = "failed"
    ∧ mapPlaywrightStatusToCtrf "interrupted" = "failed"
    ∧ mapPlaywrightStatusToCtrf "skipped" = "skipped"
    ∧ mapPlaywrightStatusToCtrf "pending" = "pending"
    ∧ ∀ s : String, s ≠ "passed" → s ≠ "failed" → s ≠ "timedOut" → s ≠ "interrupted" →
        s ≠ "skipped" → s ≠ "pending" → mapPlaywrightStatusToCtrf s = "other" := by
  refine ⟨rfl, rfl, rfl, rfl, rfl, rfl, ?_⟩
  intro s h1 h2 h3 h4 h5 h6
  simp [mapPlaywrightStatusToCtrf, h1, h2, h3, h4, h5, h6]

/-- Witness for C6: an unmapped status string yields `other`. -/
theorem statusMapping_table_c6_witness :
    mapPlaywrightStatusToCtrf "exploded" = "other" :=
  statusMapping_table_c6.2.2.2.2.2.2 "exploded" (by decide) (by decide) (by decide)
    (by decide) (by decide) (by decide)

/-- Claim C7: the suite path is the non-empty ancestor titles, walked from
the immediate parent to the root, output outermost to innermost and joined
with `" > "`; suites titled `"A"`, `""`, `"B"` around a test give `"A > B"`. -/
theorem suitePath_c7 :
    (∀ tc : TestCase,
        buildSuitePath tc =
          String.intercalate " > " ((tc.parentTitles.filter (fun t => !(t == ""))).reverse))
    ∧ buildSuitePath tcNested = "A > B" := by
  constructor
  · intro tc
    simp [buildSuitePath, buildSuitePathComponents_eq]
  · rfl

/-- Claim C8: output-filename normalization leaves names ending in `".json"`
unchanged and appends `".json"` otherwise; it is idempotent and its result
always ends in `".json"`; `"custom"` becomes `"custom.json"`, while
`"custom.json"` is unchanged. -/
theorem setFilename_c8 :
    (∀ f : List Char, jsonExt.isSuffixOf f = true → setFilename f = f)
    ∧ (∀ f : List Char, jsonExt.isSuffixOf f = false → setFilename f = f ++ jsonExt)
    ∧ (∀ f : List Char, setFilename (setFilename f) = setFilename f)
    ∧ (∀ f : List Char, jsonExt.isSuffixOf (setFilename f) = true)
    ∧ setFilename "custom".toList = "custom.json".toList
    ∧ setFilename "custom.json".toList = "custom.json".toList := by
  have hsuf : ∀ f : List Char, jsonExt.isSuffixOf (setFilename f) = true := by
    intro f
    unfold setFilename
    by_cases h : jsonExt.isSuffixOf f = true
    · simp [h]
    · simp only [Bool.not_eq_true] at h
      simp [h, jsonExt_isSuffixOf_append]
  refine ⟨?_, ?_, ?_, hsuf, by decide, by decide⟩
  · intro f h; simp [setFilename, h]
  · intro f h; simp [setFilename, h]
  · intro f
    by_cases h : jsonExt.isSuffixOf f = true
    · simp [setFilename, h]
    · simp only [Bool.not_eq_true] at h
      simp [setFilename, h, jsonExt_isSuffixOf_append]

/-- Witness for C8: the two implications at concrete filenames. -/
theorem setFilename_c8_witness :
    setFilename "name".toList = "name".toList ++ jsonExt
    ∧ setFilename "a.json".toList = "a.json".toList :=
  ⟨setFilename_c8.2.1 "name".toList (by decide),
   setFilename_c8.1 "a.json".toList (by decide)⟩

/-- `updateSummaryFromTestResult` preserves the counters invariant. -/
theorem updateSummary_consistent (tr : TestResult) (s : Summary)
    (h : summaryCountersConsistent s) :
    summaryCountersConsistent (updateSummaryFromTestResult tr s) := by
  unfold summaryCountersConsistent at h ⊢
  unfold updateSummaryFromTestResult
  rcases mapStatus_cases tr.status with hm | hm | hm | hm | hm <;>
    simp [hm, summaryKeys, incrementSummaryField] <;> omega

/-- `processTest` preserves the counters invariant. -/
theorem processTest_consistent (cfg : ReporterConfigOptions) (b64 : Buffer → String)
    (parse : Buffer → Except String JsVal) (tc : TestCase) (r r' : Report)
    (h : processTest cfg b64 parse tc r = some r')
    (hinv : summaryCountersConsistent r.summary) :
    summaryCountersConsistent r'.summary := by
  unfold processTest at h
  cases hg : tc.results[tc.results.length - 1]? with
  | none => rw [hg] at h; exact absurd h (by simp)
  | some latest =>
      rw [hg] at h
      cases h
      exact updateSummary_consistent latest r.summary hinv

/-- `processTestList` preserves the counters invariant. -/
theorem processTestList_consistent (cfg : ReporterConfigOptions) (b64 : Buffer → String)
    (parse : Buffer → Except String JsVal) :
    ∀ (tcs : List TestCase) (r r' : Report),
      processTestList cfg b64 parse tcs r = some r' →
      summaryCountersConsistent r.summary → summaryCountersConsistent r'.summary := by
  intro tcs
  induction tcs with
  | nil => intro r r' h hinv; unfold processTestList at h; cases h; exact hinv
  | cons tc rest ih =>
      intro r r' h hinv
      unfold processTestList at h
      cases hp : processTest cfg b64 parse tc r with
      | none => rw [hp] at h; exact absurd h (by simp)
      | some r1 =>
          rw [hp] at h
          exact ih r1 r' h (processTest_consistent cfg b64 parse tc r r1 hp hinv)

mutual

/-- `processSuite` preserves the counters invariant. -/
theorem processSuite_consistent (cfg : ReporterConfigOptions) (b64 : Buffer → String)
    (parse : Buffer → Except String JsVal) :
    ∀ (s : Suite) (r r' : Report),
      processSuite cfg b64 parse s r = some r' →
      summaryCountersConsistent r.summary → summaryCountersConsistent r'.summary
  | Suite.mk t tests suites, r, r', h, hinv => by
      unfold processSuite at h
      cases hp : processTestList cfg b64 parse tests r with
      | none => rw [hp] at h; exact absurd h (by simp)
      | some r1 =>
          rw [hp] at h
          exact processSuiteList_consistent cfg b64 parse suites r1 r' h
            (processTestList_consistent cfg b64 parse tests r r1 hp hinv)

/-- `processSuiteList` preserves the counters invariant. -/
theorem processSuiteList_consistent (cfg : ReporterConfigOptions) (b64 : Buffer → String)
    (parse : Buffer → Except String JsVal) :
    ∀ (ss : List Suite) (r r' : Report),
      processSuiteList cfg b64 parse ss r = some r' →
      summaryCountersConsistent r.summary → summaryCountersConsistent r'.summary
  | [], r, r', h, hinv => by
      unfold processSuiteList at h; cases h; exact hinv
  | s :: rest, r, r', h, hinv => by
      unfold processSuiteList at h
      cases hp : processSuite cfg b64 parse s r with
      | none => rw [hp] at h; exact absurd h (by simp)
      | some r1 =>
          rw [hp] at h
          exact processSuiteList_consistent cfg b64 parse rest r1 r' h
            (processSuite_consistent cfg b64 parse s r r1 hp hinv)

end

/-- `onEnd` over a captured tree preserves the counters invariant. -/
theorem onEnd_consistent (cfg : ReporterConfigOptions) (b64 : Buffer → String)
    (parse : Buffer → Except String JsVal) (tree : Suite) (r : Report) (now : Int)
    (r' : Report) (h : onEnd cfg b64 parse (some tree) r now = some r')
    (hinv : summaryCountersConsistent r.summary) :
    summaryCountersConsistent r'.summary := by
  unfold onEnd at h
  simp only [Option.map_eq_some'] at h
  obtain ⟨r1, hp, hr⟩ := h
  have h1 : summaryCountersConsistent r1.summary := by
    refine processSuite_consistent cfg b64 parse tree _ r1 hp ?_
    unfold summaryCountersConsistent at hinv ⊢
    simpa using hinv
  subst hr
  unfold summaryCountersConsistent at h1 ⊢
  simpa using h1

/-- Claim C2: after a run over any captured suite tree, the summary's total
`tests` equals `passed + failed + pending + skipped + other`. -/
theorem summary_tests_eq_buckets_c2 (cfg : ReporterConfigOptions) (b64 : Buffer → String)
    (parse : Buffer → Except String JsVal) (tree : Suite) (now : Int) (r' : Report)
    (h : onEnd cfg b64 parse (some tree) initialReport now = some r') :
    r'.summary.tests =
      r'.summary.passed + r'.summary.failed + r'.summary.pending +
        r'.summary.skipped + r'.summary.other :=
  onEnd_consistent cfg b64 parse tree initialReport now r' h
    (by unfold summaryCountersConsistent initialReport; simp)

/-- Witness for C2: a run over a one-test suite satisfies the invariant. -/
theorem summary_tests_eq_buckets_c2_witness :
    reportAfterRun.summary.tests =
      reportAfterRun.summary.passed + reportAfterRun.summary.failed +
        reportAfterRun.summary.pending + reportAfterRun.summary.skipped +
        reportAfterRun.summary.other :=
  summary_tests_eq_buckets_c2 cfgMinimalTrue b64Digits parseFail suiteOneTest 9
    reportAfterRun (by rfl)

mutual

/-- `countSuites` returns 0 on every tree: the accumulator only ever adds
recursive results that are themselves 0. -/
theorem countSuites_eq_zero : ∀ s : Suite, countSuites s = 0
  | Suite.mk _ _ suites => by
      unfold countSuites
      exact countSuitesList_eq_zero suites

/-- `countSuitesList` returns 0 on every list of trees. -/
theorem countSuitesList_eq_zero : ∀ ss : List Suite, countSuitesList ss = 0
  | [] => by unfold countSuitesList; rfl
  | s :: rest => by
      unfold countSuitesList
      rw [countSuites_eq_zero s, countSuitesList_eq_zero rest]

end

/-- Claim C1 (code bug): the recorded `suites` counter is 0 for every
captured tree — `countSuites` never adds anything per visited suite — so for
a root with one child suite the recorded count is 0, not the positive number
of nested suites the claim requires. -/
theorem suites_counter_zero_c1 :
    (∀ s : Suite, countSuites s = 0)
    ∧ countSuites suiteRootChild = 0
    ∧ (onEnd cfgMinimalTrue b64Digits parseFail (some suiteRootChild) initialReport 9).map
        (fun r => r.summary.suites) = some (some 0) :=
  ⟨countSuites_eq_zero, rfl, rfl⟩

/-- Claim C3 (code bug): with screenshots enabled and minimal off, the code
encodes the FIRST matching screenshot attachment (JavaScript `Array.find`),
while the claim — and the repository README — say the last one: on an
attempt with two screenshot attachments the record holds the first body's
encoding `"1"` although the last matching attachment encodes to `"2"`. -/
theorem screenshot_first_not_last_c3 :
    (updateCtrfTestResultsFromTestResult cfgFull b64Digits parseFail
        tcTwoShots trTwoShots).screenshot = some "1"
    ∧ extractScreenshotBase64 b64Digits trTwoShots = some "1"
    ∧ ((trTwoShots.attachments.filter isScreenshotImage).getLast?.bind
        (fun a => a.body.map b64Digits)) = some "2"
    ∧ ("1" : String) ≠ "2" := by
  refine ⟨?_, by rfl, by rfl, by decide⟩
  rfl

/-- Counterexample to C4: a timed-out attempt whose normalized status is
`failed` and that carries an error with message `"boom"` and stack `"stk"`,
yet the produced non-minimal record omits both `message` and `trace`. -/
theorem failure_details_timedOut_counterexample_c4 :
    mapPlaywrightStatusToCtrf trTimedOut.status = "failed"
    ∧ trTimedOut.error = some errBoom
    ∧ errBoom.message = some "boom"
    ∧ errBoom.stack = some "stk"
    ∧ (updateCtrfTestResultsFromTestResult cfgFull b64Digits parseFail
        tcTimedOut trTimedOut).message = none
    ∧ (updateCtrfTestResultsFromTestResult cfgFull b64Digits parseFail
        tcTimedOut trTimedOut).trace = none := by
  refine ⟨rfl, rfl, rfl, rfl, ?_, ?_⟩ <;> rfl

/-- Claim C4 as amended: message and trace are copied from the error object
exactly when the HOST-NATIVE status is `"failed"` and an error is present;
a `timedOut` or `interrupted` attempt omits them even when it carries an
error, and so does any attempt without an error object. -/
theorem failure_details_c4 (cfg : ReporterConfigOptions) (b64 : Buffer → String)
    (parse : Buffer → Except String JsVal) (tc : TestCase) (tr : TestResult)
    (hmin : cfg.minimal = some false) :
    (∀ e : TestError, tr.status = "failed" → tr.error = some e →
        (updateCtrfTestResultsFromTestResult cfg b64 parse tc tr).message = e.message
        ∧ (updateCtrfTestResultsFromTestResult cfg b64 parse tc tr).trace = e.stack)
    ∧ (tr.error = none →
        (updateCtrfTestResultsFromTestResult cfg b64 parse tc tr).message = none
        ∧ (updateCtrfTestResultsFromTestResult cfg b64 parse tc tr).trace = none)
    ∧ (tr.status ≠ "failed" →
        (updateCtrfTestResultsFromTestResult cfg b64 parse tc tr).message = none
        ∧ (updateCtrfTestResultsFromTestResult cfg b64 parse tc tr).trace = none) := by
  refine ⟨?_, ?_, ?_⟩
  · intro e hs he
    constructor <;>
      simp [updateCtrfTestResultsFromTestResult, hmin, extractFailureDetails, hs, he]
  · intro he
    constructor <;>
      simp [updateCtrfTestResultsFromTestResult, hmin, extractFailureDetails, he]
  · intro hs
    constructor <;>
      simp [updateCtrfTestResultsFromTestResult, hmin, extractFailureDetails, hs]

/-- Witness for C4 as amended: a natively failed attempt with an error gets
its message and stack copied into the record. -/
theorem failure_details_c4_witness :
    (updateCtrfTestResultsFromTestResult cfgFull b64Digits parseFail
        tcFailed trFailed).message = errBoom.message
    ∧ (updateCtrfTestResultsFromTestResult cfgFull b64Digits parseFail
        tcFailed trFailed).trace = errBoom.stack :=
  (failure_details_c4 cfgFull b64Digits parseFail tcFailed trFailed (by rfl)).1
    errBoom (by rfl) (by rfl)

/-- Counterexample to C5: metadata that parses to an object with a `name`
but no `version` — no non-null name/version PAIR, so the claim demands an
absent browser field — yet the record's browser is `"chromium undefined"`. -/
theorem browser_no_pair_counterexample_c5 :
    ((extractMetadata parseNameOnly trMeta).1.bind (fun v => jsGetField v "version")) = none
    ∧ (updateCtrfTestResultsFromTestResult cfgFull b64Digits parseNameOnly
        tcMeta trMeta).browser = some ("chromium" ++ " " ++ "undefined") := by
  constructor <;> rfl

/-- Claim C5 as amended: in non-minimal mode the browser field equals
`"<name> <version>"` — each part rendered by JavaScript template
interpolation, so an undefined part prints as `"undefined"` and a null part
as `"null"` — whenever the parsed metadata yields a defined `name` or a
defined `version` (null counts as defined); the field is absent exactly when
both lookups are undefined, in particular when there is no `metadata.json`
attachment or its body fails to parse. -/
theorem browser_field_c5 (cfg : ReporterConfigOptions) (b64 : Buffer → String)
    (parse : Buffer → Except String JsVal) (tc : TestCase) (tr : TestResult)
    (hmin : cfg.minimal = some false) :
    ((extractMetadata parse tr).1.bind (fun v => jsGetField v "name") = none →
     (extractMetadata parse tr).1.bind (fun v => jsGetField v "version") = none →
        (updateCtrfTestResultsFromTestResult cfg b64 parse tc tr).browser = none)
    ∧ (((extractMetadata parse tr).1.bind (fun v => jsGetField v "name")).isSome = true ∨
       ((extractMetadata parse tr).1.bind (fun v => jsGetField v "version")).isSome = true →
        (updateCtrfTestResultsFromTestResult cfg b64 parse tc tr).browser =
          some (jsTemplate ((extractMetadata parse tr).1.bind (fun v => jsGetField v "name"))
            ++ " " ++
            jsTemplate ((extractMetadata parse tr).1.bind (fun v => jsGetField v "version")))) := by
  constructor
  · intro hn hv
    simp [updateCtrfTestResultsFromTestResult, hmin, hn, hv]
  · intro hor
    rcases hor with hs | hs <;>
      simp [updateCtrfTestResultsFromTestResult, hmin, hs]

/-- Witness for C5 as amended: name-only metadata gives
`"chromium undefined"`; unparseable metadata gives an absent field. -/
theorem browser_field_c5_witness :
    (updateCtrfTestResultsFromTestResult cfgFull b64Digits parseNameOnly
        tcMeta trMeta).browser =
      some (jsTemplate ((extractMetadata parseNameOnly trMeta).1.bind
            (fun v => jsGetField v "name"))
        ++ " " ++
        jsTemplate ((extractMetadata parseNameOnly trMeta).1.bind
            (fun v => jsGetField v "version")))
    ∧ (updateCtrfTestResultsFromTestResult cfgFull b64Digits parseFail
        tcMeta trMeta).browser = none :=
  ⟨(browser_field_c5 cfgFull b64Digits parseNameOnly tcMeta trMeta (by rfl)).2
      (Or.inl (by rfl)),
   (browser_field_c5 cfgFull b64Digits parseFail tcMeta trMeta (by rfl)).1
      (by rfl) (by rfl)⟩

/-- With at least one recorded attempt, the last-attempt lookup succeeds and
`processTest` produces a report. -/
theorem processTest_isSome (cfg : ReporterConfigOptions) (b64 : Buffer → String)
    (parse : Buffer → Except String JsVal) (tc : TestCase) (r : Report)
    (h : tc.results ≠ []) :
    (processTest cfg b64 parse tc r).isSome = true := by
  unfold processTest
  cases hg : tc.results[tc.results.length - 1]? with
  | some latest => simp
  | none =>
      have hlen : tc.results.length - 1 < tc.results.length := by
        have := List.length_pos.mpr h
        omega
      rw [List.getElem?_eq_getElem hlen] at hg
      exact absurd hg (by simp)

/-- `processTestList` succeeds when every listed test has an attempt. -/
theorem processTestList_isSome (cfg : ReporterConfigOptions) (b64 : Buffer → String)
    (parse : Buffer → Except String JsVal) :
    ∀ (tcs : List TestCase) (r : Report), (∀ tc ∈ tcs, tc.results ≠ []) →
      (processTestList cfg b64 parse tcs r).isSome = true := by
  intro tcs
  induction tcs with
  | nil => intro r _; simp [processTestList]
  | cons tc rest ih =>
      intro r h
      unfold processTestList
      cases hp : processTest cfg b64 parse tc r with
      | none =>
          have hs := processTest_isSome cfg b64 parse tc r (h tc (by simp))
          rw [hp] at hs
          exact absurd hs (by simp)
      | some r1 => exact ih r1 (fun t ht => h t (by simp [ht]))

mutual

/-- `processSuite` succeeds on a tree where every test has an attempt. -/
theorem processSuite_isSome (cfg : ReporterConfigOptions) (b64 : Buffer → String)
    (parse : Buffer → Except String JsVal) :
    ∀ (s : Suite) (r : Report), allTestsHaveResults s = true →
      (processSuite cfg b64 parse s r).isSome = true
  | Suite.mk t tests suites, r, h => by
      unfold allTestsHaveResults at h
      simp only [Bool.and_eq_true] at h
      obtain ⟨h1, h2⟩ := h
      unfold processSuite
      cases hp : processTestList cfg b64 parse tests r with
      | none =>
          have hs : (processTestList cfg b64 parse tests r).isSome = true := by
            refine processTestList_isSome cfg b64 parse tests r ?_
            intro tc htc
            have := List.all_eq_true.mp h1 tc htc
            simpa using this
          rw [hp] at hs
          exact absurd hs (by simp)
      | some r1 => exact processSuiteList_isSome cfg b64 parse suites r1 h2

/-- `processSuiteList` succeeds on child suites satisfying the same bound. -/
theorem processSuiteList_isSome (cfg : ReporterConfigOptions) (b64 : Buffer → String)
    (parse : Buffer → Except String JsVal) :
    ∀ (ss : List Suite) (r : Report), allTestsHaveResultsList ss = true →
      (processSuiteList cfg b64 parse ss r).isSome = true
  | [], r, _ => by simp [processSuiteList]
  | s :: rest, r, h => by
      unfold allTestsHaveResultsList at h
      simp only [Bool.and_eq_true] at h
      obtain ⟨h1, h2⟩ := h
      unfold processSuiteList
      cases hp : processSuite cfg b64 parse s r with
      | none =>
          have hs := processSuite_isSome cfg b64 parse s r h1
          rw [hp] at hs
          exact absurd hs (by simp)
      | some r1 => exact processSuiteList_isSome cfg b64 parse rest r1 h2

end

/-- Claim C10: the last-attempt read `results[length - 1]` has no emptiness
guard — on an empty results list it yields no value and processing the test
is undefined (`none`) — while any test with at least one attempt, and any
tree all of whose tests have one, is processed successfully. -/
theorem last_attempt_partiality_c10 (cfg : ReporterConfigOptions) (b64 : Buffer → String)
    (parse : Buffer → Except String JsVal) :
    (∀ (tc : TestCase) (report : Report), tc.results = [] →
        processTest cfg b64 parse tc report = none)
    ∧ (∀ (tc : TestCase) (report : Report), tc.results ≠ [] →
        (processTest cfg b64 parse tc report).isSome = true)
    ∧ (∀ (s : Suite) (report : Report), allTestsHaveResults s = true →
        (processSuite cfg b64 parse s report).isSome = true) := by
  refine ⟨?_, ?_, ?_⟩
  · intro tc report h
    simp [processTest, h]
  · intro tc report h
    exact processTest_isSome cfg b64 parse tc report h
  · intro s report h
    exact processSuite_isSome cfg b64 parse s report h

/-- Witness for C10: an attempt-less test yields no report, while a test
with an attempt and a tree of such tests are processed. -/
theorem last_attempt_partiality_c10_witness :
    processTest cfgMinimalTrue b64Digits parseFail tcNoResults initialReport = none
    ∧ (processTest cfgMinimalTrue b64Digits parseFail tcPassed initialReport).isSome = true
    ∧ (processSuite cfgMinimalTrue b64Digits parseFail suiteOneTest initialReport).isSome
        = true :=
  ⟨(last_attempt_partiality_c10 cfgMinimalTrue b64Digits parseFail).1 tcNoResults
      initialReport (by rfl),
   (last_attempt_partiality_c10 cfgMinimalTrue b64Digits parseFail).2.1 tcPassed
      initialReport (by simp [tcPassed]),
   (last_attempt_partiality_c10 cfgMinimalTrue b64Digits parseFail).2.2 suiteOneTest
      initialReport (by rfl)⟩

/-- Claim C9: a metadata body that fails to parse is caught and logged by
`extractMetadata`, which returns the no-metadata result; the record then has
no browser field and the test is still processed — nothing propagates. -/
theorem metadata_parse_failure_c9 (parse : Buffer → Except String JsVal)
    (tr : TestResult) (a : Attachment) (b : Buffer) (msg : String)
    (hfind : tr.attachments.find? (fun x => x.name == "metadata.json") = some a)
    (hbody : a.body = some b)
    (hparse : parse b = Except.error msg) :
    extractMetadata parse tr = (none, ["Error parsing browser metadata: " ++ msg])
    ∧ (∀ (cfg : ReporterConfigOptions) (b64 : Buffer → String) (tc : TestCase),
        (updateCtrfTestResultsFromTestResult cfg b64 parse tc tr).browser = none)
    ∧ (∀ (cfg : ReporterConfigOptions) (b64 : Buffer → String) (tc : TestCase)
        (report : Report), tc.results ≠ [] →
        (processTest cfg b64 parse tc report).isSome = true) := by
  have hmeta : extractMetadata parse tr =
      (none, ["Error parsing browser metadata: " ++ msg]) := by
    simp [extractMetadata, hfind, hbody, hparse]
  refine ⟨hmeta, ?_, ?_⟩
  · intro cfg b64 tc
    by_cases hm : cfg.minimal = some false
    · simp [updateCtrfTestResultsFromTestResult, hm, hmeta]
    · simp [updateCtrfTestResultsFromTestResult, hm]
  · intro cfg b64 tc report h
    exact processTest_isSome cfg b64 parse tc report h

/-- Witness for C9: the always-throwing parse on a concrete attempt with a
metadata attachment yields the caught-and-logged no-metadata result. -/
theorem metadata_parse_failure_c9_witness :
    extractMetadata parseFail trMeta =
      (none, ["Error parsing browser metadata: " ++ "Unexpected token"]) :=
  (metadata_parse_failure_c9 parseFail trMeta attMeta [0] "Unexpected token"
      (by rfl) (by rfl) (by rfl)).1
